import Mathlib

/-!
Verification of the `memuse` dynamic-memory-usage estimation library.

The development shallowly embeds the library's source:

* `src/lib.rs` — the `DynamicUsage` trait (point estimate + bound pair),
  the `NoDynamicUsage` marker, and the sequence-container implementations
  (`Vec`, `BinaryHeap`, `LinkedList`, `VecDeque`).
* `src/btree.rs` — the balanced-tree bound engine
  (`btree_dynamic_usage_bounds`, `btree_dynamic_usage`) and the
  `BTreeMap`/`BTreeSet` implementations built on it.
* `src/external/crossbeam_channel.rs` — the `Sender`/`Receiver`
  implementations.

Modelling conventions:

* `usize` arithmetic is modelled on `Nat`.  Rust subtraction that can
  underflow at a reachable input is modelled with `checkedSub`, returning
  `none` where the Rust program aborts (overflow panic in debug builds;
  release-mode wrapping is likewise a program error, not intended
  behaviour).  All other arithmetic in the source provably cannot
  overflow or underflow at realisable inputs and is modelled exactly.
* The source computes B-tree heights with `f64` logarithms of exact
  integer arguments, e.g. `((entries + 1) as f64).log(m as f64).ceil()`.
  These are modelled by their exact mathematical values `Nat.clog` and
  `Nat.log`: for the magnitudes involved (the argument of the logarithm
  is an integer or half-integer, and the result is compared only against
  integers well inside `f64` precision) the rounded `f64` computation
  agrees with the exact one.  For the upper bound the source divides by
  `2f64` before taking the logarithm; since `d ^ k` is an integer,
  `d ^ k ≤ (n + 1) / 2` over the reals iff `d ^ k ≤ (n + 1) / 2` in
  truncating integer division, so `Nat.log d ((n + 1) / 2)` is the exact
  value of the source's `floor` expression.  The `as u32` cast after
  `floor` saturates negative values to `0`, which agrees with
  `Nat.log d 0 = 0` at `entries = 0`.
* Per-node byte sizes (`mem::size_of::<InternalNode<K, V>>()` etc.) and
  the element sizes of sequence containers are memory-layout quantities;
  they enter the embedding as explicit `Nat` parameters (the spec's
  "node-layout descriptor").  Concrete instantiations in witness
  theorems use the sizes of the 64-bit layout for the types named there.
* A stored key, value or element is represented by the results its own
  `DynamicUsage` implementation returns (`DynUsage` below); collections
  are lists of such summaries, mirroring the source's iterator folds.
-/

namespace Memuse

set_option maxRecDepth 4096

/-- The results of one element's `DynamicUsage` implementation:
`usage` is `dynamic_usage()`, `bounds` is `dynamic_usage_bounds()`. -/
structure DynUsage where
  usage : Nat
  bounds : Nat × Option Nat
  deriving DecidableEq

/-- The documented contract of the `DynamicUsage` trait (lib.rs lines
57-71): the point estimate lies between the bounds. -/
def DynUsage.Valid (d : DynUsage) : Prop :=
  d.bounds.1 ≤ d.usage ∧ ∀ u, d.bounds.2 = some u → d.usage ≤ u

/-- `Option::zip` from the Rust standard library, as used by the bound
folds in lib.rs and btree.rs. -/
def zipOpt {α β : Type} : Option α → Option β → Option (α × β)
  | some a, some b => some (a, b)
  | _, _ => none

/-- Rust `usize`/`u32` subtraction `a - b` at a site where `b ≤ a` can
fail: `none` models the overflow panic. -/
def checkedSub (a b : Nat) : Option Nat :=
  if b ≤ a then some (a - b) else none

/-- btree.rs line 14: the branching constant of `std`'s B-tree. -/
def B : Nat := 6

/-- btree.rs line 15: keys per node, `2 * B - 1`. -/
def CAPACITY : Nat := 2 * B - 1

/-- btree.rs lines 66-71: the lower-bound node decomposition
`(inner, leaf)`.  `h_min` is `ceil(log_m(entries + 1)) - 1` computed in
`u32`; at `entries = 0` the ceiling is `0` and the subtraction
underflows (`none`). -/
def btreeLowerCounts (entries : Nat) : Option (Nat × Nat) :=
  (checkedSub (Nat.clog (2 * B) (entries + 1)) 1).map fun h_min =>
    match h_min with
    | 0 => (0, 1)
    | _ => (((2 * B) ^ (h_min - 1) - 1) / (2 * B - 1), (2 * B) ^ (h_min - 1))

/-- btree.rs lines 73-82: the upper-bound node decomposition
`(inner, leaf)`, with `h_max = floor(log_d((entries + 1) / 2))`. -/
def btreeUpperCounts (entries : Nat) : Nat × Nat :=
  let h_max := Nat.log B ((entries + 1) / 2)
  match h_max with
  | 0 => (0, 1)
  | 1 => (1, 2)
  | _ =>
    (1 + 2 * (B ^ (h_max - 2) - 1) / (B - 1),
      2 * B ^ (h_max - 2))

/-- btree.rs lines 34-88: `btree_dynamic_usage_bounds::<K, V>` with the
static node sizes passed explicitly.  The lower counts are computed
first (source order), so their underflow at `entries = 0` aborts the
whole call. -/
def btree_dynamic_usage_bounds (innerSize leafSize entries : Nat) :
    Option (Nat × Nat) :=
  (btreeLowerCounts entries).map fun lower =>
    let upper := btreeUpperCounts entries
    (lower.1 * innerSize + lower.2 * leafSize,
      upper.1 * innerSize + upper.2 * leafSize)

/-- btree.rs lines 90-94: `btree_dynamic_usage`, the midpoint
`lower + (upper - lower) / 2`.  The subtraction `upper - lower` is a
`usize` subtraction that underflows whenever `upper < lower`. -/
def btree_dynamic_usage (innerSize leafSize entries : Nat) : Option Nat :=
  (btree_dynamic_usage_bounds innerSize leafSize entries).bind fun bounds =>
    (checkedSub bounds.2 bounds.1).map fun d => bounds.1 + d / 2

/-- btree.rs lines 97-103: `BTreeMap::dynamic_usage` — the structural
estimate at the map's length plus the summed key/value estimates.  The
map is represented by the list of its entries' `DynamicUsage` results. -/
def mapDynamicUsage (innerSize leafSize : Nat)
    (entries : List (DynUsage × DynUsage)) : Option Nat :=
  (btree_dynamic_usage innerSize leafSize entries.length).map fun s =>
    s + (entries.map fun kv => kv.1.usage + kv.2.usage).sum

/-- btree.rs lines 109-114: one step of the `BTreeMap` bound fold. -/
def mapFoldStep (acc : Nat × Option Nat) (kv : DynUsage × DynUsage) :
    Nat × Option Nat :=
  (acc.1 + kv.1.bounds.1 + kv.2.bounds.1,
    (zipOpt (zipOpt acc.2 kv.1.bounds.2) kv.2.bounds.2).map fun p =>
      p.1.1 + p.1.2 + p.2)

/-- btree.rs lines 105-115: `BTreeMap::dynamic_usage_bounds`. -/
def mapDynamicUsageBounds (innerSize leafSize : Nat)
    (entries : List (DynUsage × DynUsage)) : Option (Nat × Option Nat) :=
  (btree_dynamic_usage_bounds innerSize leafSize entries.length).map
    fun bounds => entries.foldl mapFoldStep (bounds.1, some bounds.2)

/-- btree.rs lines 119-123: `BTreeSet::dynamic_usage`, built on the
engine instantiated at value type `()` (so `innerSize`/`leafSize` here
are the sizes of `InternalNode<T, ()>`/`LeafNode<T, ()>`). -/
def setDynamicUsage (innerSize leafSize : Nat) (elems : List DynUsage) :
    Option Nat :=
  (btree_dynamic_usage innerSize leafSize elems.length).map fun s =>
    s + (elems.map DynUsage.usage).sum

/-- btree.rs lines 129-131: one step of the `BTreeSet` bound fold. -/
def setFoldStep (acc : Nat × Option Nat) (k : DynUsage) : Nat × Option Nat :=
  (acc.1 + k.bounds.1,
    (zipOpt acc.2 k.bounds.2).map fun p => p.1 + p.2)

/-- btree.rs lines 125-132: `BTreeSet::dynamic_usage_bounds`. -/
def setDynamicUsageBounds (innerSize leafSize : Nat)
    (elems : List DynUsage) : Option (Nat × Option Nat) :=
  (btree_dynamic_usage_bounds innerSize leafSize elems.length).map
    fun bounds => elems.foldl setFoldStep (bounds.1, some bounds.2)

/-- lib.rs lines 166-168 (generated for each sequence container):
`dynamic_usage` is the container's base usage plus the summed element
estimates. -/
def iterDynamicUsage (baseUsage : Nat) (elems : List DynUsage) : Nat :=
  baseUsage + (elems.map DynUsage.usage).sum

/-- lib.rs lines 172-177: the element-bound fold of the generated
`dynamic_usage_bounds`, starting from `(0, Some(0))`. -/
def iterFoldStep (acc : Nat × Option Nat) (e : DynUsage) : Nat × Option Nat :=
  (acc.1 + e.bounds.1,
    (zipOpt acc.2 e.bounds.2).map fun p => p.1 + p.2)

/-- lib.rs lines 170-179: the generated `dynamic_usage_bounds`, adding
the base usage to the folded element bounds. -/
def iterDynamicUsageBounds (baseUsage : Nat) (elems : List DynUsage) :
    Nat × Option Nat :=
  let folded := elems.foldl iterFoldStep (0, some 0)
  (baseUsage + folded.1, folded.2.map fun u => baseUsage + u)

/-- lib.rs line 185: `Vec<T>` base usage `capacity * size_of::<T>()`. -/
def vecDynamicUsage (capacity elemSize : Nat) (elems : List DynUsage) : Nat :=
  iterDynamicUsage (capacity * elemSize) elems

/-- lib.rs line 185: `Vec<T>` bounds. -/
def vecDynamicUsageBounds (capacity elemSize : Nat) (elems : List DynUsage) :
    Nat × Option Nat :=
  iterDynamicUsageBounds (capacity * elemSize) elems

/-- lib.rs lines 187-190: `BinaryHeap<T>` base usage (a `Vec` wrapper). -/
def binaryHeapDynamicUsage (capacity elemSize : Nat)
    (elems : List DynUsage) : Nat :=
  iterDynamicUsage (capacity * elemSize) elems

/-- lib.rs lines 192-194: `LinkedList<T>` base usage `len * size`. -/
def linkedListDynamicUsage (elemSize : Nat) (elems : List DynUsage) : Nat :=
  iterDynamicUsage (elems.length * elemSize) elems

/-- lib.rs lines 196-199: `VecDeque<T>` base usage `(capacity + 1) * size`
(the ring buffer keeps one slot empty). -/
def vecDequeDynamicUsage (capacity elemSize : Nat)
    (elems : List DynUsage) : Nat :=
  iterDynamicUsage ((capacity + 1) * elemSize) elems

/-- The observable state of a crossbeam channel as the estimation code
reads it: `Receiver::capacity()` and `Receiver::len()`. -/
structure ChannelState where
  capacity : Option Nat
  len : Nat
  deriving DecidableEq

/-- crossbeam_channel.rs lines 8-21: the guessed channel flavor. -/
inductive ChannelFlavor where
  | Array
  | List
  | Zero
  | At
  | Tick
  | Never
  deriving DecidableEq

/-- crossbeam_channel.rs lines 24-35: `ChannelFlavor::guess`. -/
def ChannelFlavor.guess (capacity : Option Nat) : ChannelFlavor :=
  match capacity with
  | some 0 => ChannelFlavor.Zero
  | some 1 => ChannelFlavor.Array
  | some _ => ChannelFlavor.Array
  | none => ChannelFlavor.List

/-- crossbeam_channel.rs line 58. -/
def ITEMS_PER_BLOCK : Nat := 31

/-- crossbeam_channel.rs lines 52-75: `Receiver::dynamic_usage`.  The
source `match` has an arm only for `ChannelFlavor::List`; every other
flavor reaches no arm, modelled as `none`.  `ptrSize`, `itemSize` and
`atomicSize` stand for `size_of::<usize>()`, `size_of::<T>()` and
`size_of::<AtomicUsize>()`. -/
def receiverDynamicUsage (ptrSize itemSize atomicSize : Nat)
    (rx : ChannelState) : Option Nat :=
  match ChannelFlavor.guess rx.capacity with
  | ChannelFlavor.List =>
    let num_blocks := (rx.len + ITEMS_PER_BLOCK - 1) / ITEMS_PER_BLOCK
    let block_size := ptrSize + ITEMS_PER_BLOCK * (itemSize + atomicSize)
    some (num_blocks * block_size)
  | _ => none

/-- crossbeam_channel.rs lines 77-81: `Receiver::dynamic_usage_bounds`
forwards `dynamic_usage` as both components. -/
def receiverDynamicUsageBounds (ptrSize itemSize atomicSize : Nat)
    (rx : ChannelState) : Option (Nat × Option Nat) :=
  (receiverDynamicUsage ptrSize itemSize atomicSize rx).map fun usage =>
    (usage, some usage)

/-- crossbeam_channel.rs lines 40-43: `Sender::dynamic_usage` is `0`
whatever the channel holds. -/
def senderDynamicUsage (_ch : ChannelState) : Nat := 0

/-- crossbeam_channel.rs lines 46-48: `Sender::dynamic_usage_bounds`. -/
def senderDynamicUsageBounds (_ch : ChannelState) : Nat × Option Nat :=
  (0, some 0)

/-- The `DynamicUsage` results of a `NoDynamicUsage` type such as `u16`
(lib.rs lines 94-104): usage `0`, bounds `(0, Some(0))`. -/
def zeroDynUsage : DynUsage := ⟨0, (0, some 0)⟩

/-- Modelled from the spec: the `DynamicUsage` results of the zero-sized
unit type `()`.  Its implementation lives in the repository's tuple
module, which is declared in lib.rs line 212 but absent from `src/`;
per the spec, a zero-sized value type "collapses the value contribution
to zero", i.e. it reports `0` and `(0, Some(0))`. -/
def unitDynUsage : DynUsage := ⟨0, (0, some 0)⟩

/-- The lower-bound node decomposition as the spec and claim C2 state
it, as a function of `h_min`: a single leaf at `h_min = 0`, otherwise
`(12^(h_min-1) - 1) / 11` internal nodes and `12^(h_min-1)` leaves. -/
def specLowerDecompositionAt (h_min : Nat) : Nat × Nat :=
  if h_min = 0 then (0, 1)
  else ((12 ^ (h_min - 1) - 1) / 11, 12 ^ (h_min - 1))

/-- Claim C2's lower-bound decomposition at entry count `n`, with
`h_min = ceil(log_12(n + 1)) - 1`. -/
def specLowerDecomposition (n : Nat) : Nat × Nat :=
  specLowerDecompositionAt (Nat.clog 12 (n + 1) - 1)

/-- The upper-bound node decomposition as the spec and claim C3 state
it, as a function of `h_max`. -/
def specUpperDecompositionAt (h_max : Nat) : Nat × Nat :=
  if h_max = 0 then (0, 1)
  else if h_max = 1 then (1, 2)
  else (1 + 2 * (6 ^ (h_max - 2) - 1) / 5, 2 * 6 ^ (h_max - 2))

/-- Claim C3's upper-bound decomposition at entry count `n`, with
`h_max = floor(log_6((n + 1) / 2))`. -/
def specUpperDecomposition (n : Nat) : Nat × Nat :=
  specUpperDecompositionAt (Nat.log 6 ((n + 1) / 2))

lemma checkedSub_of_le {a b : Nat} (h : b ≤ a) : checkedSub a b = some (a - b) := by
  simp [checkedSub, h]

lemma checkedSub_of_lt {a b : Nat} (h : a < b) : checkedSub a b = none := by
  simp [checkedSub, Nat.not_le.mpr h]

lemma clog_eq_succ {b n k : Nat} (hb : 1 < b) (h1 : b ^ k < n)
    (h2 : n ≤ b ^ (k + 1)) : Nat.clog b n = k + 1 :=
  le_antisymm ((Nat.le_pow_iff_clog_le hb).1 h2)
    (Nat.succ_le_of_lt ((Nat.pow_lt_iff_lt_clog hb).1 h1))

lemma clog12_145 : Nat.clog 12 145 = 3 :=
  clog_eq_succ (by norm_num) (by norm_num) (by norm_num)

lemma clog12_11 : Nat.clog 12 11 = 1 :=
  Nat.clog_eq_one (by norm_num) (by norm_num)

lemma log6_72 : Nat.log 6 72 = 2 :=
  Nat.log_eq_of_pow_le_of_lt_pow (by norm_num) (by norm_num)

lemma log6_5 : Nat.log 6 5 = 0 :=
  Nat.log_eq_zero_iff.2 (Or.inl (by norm_num))

lemma btreeLowerCounts_eq {n : Nat} (hn : 1 ≤ n) :
    btreeLowerCounts n = some (specLowerDecomposition n) := by
  have h2B : (2 * B : Nat) = 12 := rfl
  have hpos : 1 ≤ Nat.clog (2 * B) (n + 1) :=
    Nat.clog_pos (by norm_num [B]) (by omega)
  rw [btreeLowerCounts, checkedSub_of_le hpos, Option.map_some']
  rw [specLowerDecomposition]
  rw [h2B]
  rcases Nat.clog 12 (n + 1) - 1 with _ | k
  · rfl
  · rw [specLowerDecompositionAt]
    norm_num

lemma btreeUpperCounts_eq (n : Nat) :
    btreeUpperCounts n = specUpperDecomposition n := by
  have hB : (B : Nat) = 6 := rfl
  rw [btreeUpperCounts, specUpperDecomposition]
  rw [hB]
  rcases Nat.log 6 ((n + 1) / 2) with _ | _ | k
  · rfl
  · rfl
  · rw [specUpperDecompositionAt]
    norm_num

lemma btree_bounds_eq (innerSize leafSize : Nat) {n : Nat} (hn : 1 ≤ n) :
    btree_dynamic_usage_bounds innerSize leafSize n =
      some ((specLowerDecomposition n).1 * innerSize +
          (specLowerDecomposition n).2 * leafSize,
        (specUpperDecomposition n).1 * innerSize +
          (specUpperDecomposition n).2 * leafSize) := by
  rw [btree_dynamic_usage_bounds, btreeLowerCounts_eq hn, Option.map_some',
    btreeUpperCounts_eq]

lemma specLower_144 : specLowerDecomposition 144 = (1, 12) := by
  rw [specLowerDecomposition]
  norm_num [clog12_145, specLowerDecompositionAt]

lemma specUpper_144 : specUpperDecomposition 144 = (1, 2) := by
  rw [specUpperDecomposition]
  norm_num [log6_72, specUpperDecompositionAt]

lemma bounds_144 : btree_dynamic_usage_bounds 152 56 144 = some (824, 264) := by
  rw [btree_bounds_eq 152 56 (by norm_num), specLower_144, specUpper_144]
  rfl

lemma usage_144 : btree_dynamic_usage 152 56 144 = none := by
  rw [btree_dynamic_usage, bounds_144]
  rfl

lemma specLower_10 : specLowerDecomposition 10 = (0, 1) := by
  rw [specLowerDecomposition]
  norm_num [clog12_11, specLowerDecompositionAt]

lemma specUpper_10 : specUpperDecomposition 10 = (0, 1) := by
  rw [specUpperDecomposition]
  norm_num [log6_5, specUpperDecompositionAt]

lemma bounds_10 : btree_dynamic_usage_bounds 152 56 10 = some (56, 56) := by
  rw [btree_bounds_eq 152 56 (by norm_num), specLower_10, specUpper_10]
  rfl

lemma usage_10 : btree_dynamic_usage 152 56 10 = some 56 := by
  rw [btree_dynamic_usage, bounds_10]
  rfl

lemma btreeLowerCounts_zero : btreeLowerCounts 0 = none := by
  have h : Nat.clog (2 * B) (0 + 1) = 0 := Nat.clog_one_right _
  rw [btreeLowerCounts, h]
  rfl

lemma bounds_zero (innerSize leafSize : Nat) :
    btree_dynamic_usage_bounds innerSize leafSize 0 = none := by
  rw [btree_dynamic_usage_bounds, btreeLowerCounts_zero]
  rfl

lemma usage_zero (innerSize leafSize : Nat) :
    btree_dynamic_usage innerSize leafSize 0 = none := by
  rw [btree_dynamic_usage, bounds_zero]
  rfl

lemma mapFold_fst (l : List (DynUsage × DynUsage)) (acc : Nat × Option Nat) :
    (l.foldl mapFoldStep acc).1 =
      acc.1 + (l.map fun kv => kv.1.bounds.1 + kv.2.bounds.1).sum := by
  induction l generalizing acc with
  | nil => simp
  | cons x xs ih =>
    rw [List.foldl_cons, ih, List.map_cons, List.sum_cons]
    show acc.1 + x.1.bounds.1 + x.2.bounds.1 + _ = _
    omega

lemma setFold_fst (l : List DynUsage) (acc : Nat × Option Nat) :
    (l.foldl setFoldStep acc).1 =
      acc.1 + (l.map fun k => k.bounds.1).sum := by
  induction l generalizing acc with
  | nil => simp
  | cons x xs ih =>
    rw [List.foldl_cons, ih, List.map_cons, List.sum_cons]
    show acc.1 + x.bounds.1 + _ = _
    omega

lemma mapFold_replicate_zero (k a u : Nat) :
    (List.replicate k (zeroDynUsage, zeroDynUsage)).foldl mapFoldStep
      (a, some u) = (a, some u) := by
  induction k with
  | zero => rfl
  | succ m ih =>
    rw [List.replicate_succ, List.foldl_cons]
    have hstep : mapFoldStep (a, some u) (zeroDynUsage, zeroDynUsage) = (a, some u) := by
      simp [mapFoldStep, zeroDynUsage, zipOpt]
    rw [hstep, ih]

lemma specLowerAt_fst_mono {h h' : Nat} (hle : h ≤ h') :
    (specLowerDecompositionAt h).1 ≤ (specLowerDecompositionAt h').1 := by
  by_cases h0 : h = 0
  · simp [specLowerDecompositionAt, h0]
  · have h0' : h' ≠ 0 := by omega
    simp only [specLowerDecompositionAt, if_neg h0, if_neg h0']
    exact Nat.div_le_div_right
      (Nat.sub_le_sub_right
        (Nat.pow_le_pow_right (by norm_num) (by omega)) 1)

lemma specLowerAt_snd_mono {h h' : Nat} (hle : h ≤ h') :
    (specLowerDecompositionAt h).2 ≤ (specLowerDecompositionAt h').2 := by
  by_cases h0 : h = 0
  · by_cases h0' : h' = 0
    · simp [specLowerDecompositionAt, h0, h0']
    · simp only [specLowerDecompositionAt, if_pos h0, if_neg h0']
      exact Nat.one_le_pow _ _ (by norm_num)
  · have h0' : h' ≠ 0 := by omega
    simp only [specLowerDecompositionAt, if_neg h0, if_neg h0']
    exact Nat.pow_le_pow_right (by norm_num) (by omega)

lemma specLowerBytes_mono (innerSize leafSize : Nat) {n n' : Nat}
    (h : n ≤ n') :
    (specLowerDecomposition n).1 * innerSize +
      (specLowerDecomposition n).2 * leafSize ≤
    (specLowerDecomposition n').1 * innerSize +
      (specLowerDecomposition n').2 * leafSize := by
  have hh : Nat.clog 12 (n + 1) - 1 ≤ Nat.clog 12 (n' + 1) - 1 :=
    Nat.sub_le_sub_right (Nat.clog_mono_right 12 (by omega)) 1
  exact Nat.add_le_add
    (Nat.mul_le_mul_right _ (specLowerAt_fst_mono hh))
    (Nat.mul_le_mul_right _ (specLowerAt_snd_mono hh))

lemma mapFoldStep_unit (acc : Nat × Option Nat) (e : DynUsage) :
    mapFoldStep acc (e, unitDynUsage) = setFoldStep acc e := by
  rcases acc with ⟨a, o⟩
  rcases o with _ | a2 <;> rcases he : e.bounds.2 with _ | e2 <;>
    simp [mapFoldStep, setFoldStep, zipOpt, unitDynUsage, he]

lemma foldl_map_unit (elems : List DynUsage) (acc : Nat × Option Nat) :
    (elems.map fun e => (e, unitDynUsage)).foldl mapFoldStep acc =
      elems.foldl setFoldStep acc := by
  induction elems generalizing acc with
  | nil => rfl
  | cons x xs ih => simp [mapFoldStep_unit, ih]

/-- C1: the claimed invariant `lower <= dynamic_usage <= upper` fails on
the code.  For a `BTreeMap<u16, u16>` with 144 entries (internal node
152 bytes, leaf node 56 bytes; keys and values satisfy the invariant
recursively), `dynamic_usage_bounds` returns `(824, Some(264))` with
`lower > upper`, and `dynamic_usage` hits the underflowing subtraction
`upper - lower` and returns no value at all. -/
theorem claim_C1_bug :
    DynUsage.Valid zeroDynUsage ∧
    mapDynamicUsageBounds 152 56
      (List.replicate 144 (zeroDynUsage, zeroDynUsage)) = some (824, some 264) ∧
    mapDynamicUsage 152 56
      (List.replicate 144 (zeroDynUsage, zeroDynUsage)) = none ∧
    (264 : Nat) < 824 := by
  have hlen : (List.replicate 144 (zeroDynUsage, zeroDynUsage)).length = 144 := by
    simp
  refine ⟨⟨le_refl 0, fun u hu => ?_⟩, ?_, ?_, by norm_num⟩
  · simp [zeroDynUsage] at hu ⊢
  · rw [mapDynamicUsageBounds, hlen, bounds_144, Option.map_some',
      mapFold_replicate_zero]
  · rw [mapDynamicUsage, hlen, usage_144]
    rfl

/-- C2: for every entry count `n ≥ 1` the lower-bound decomposition is
computed with `h_min = ceil(log_12(n+1)) - 1` (m = 12 = 2·B): a single
leaf when `h_min = 0`, else `(12^(h_min-1) - 1)/11` internal nodes and
`12^(h_min-1)` leaves, and the lower byte bound is
`internal * internal_node_bytes + leaf * leaf_node_bytes`. -/
theorem claim_C2 (innerSize leafSize n : Nat) (hn : 1 ≤ n) :
    btreeLowerCounts n = some (specLowerDecomposition n) ∧
    (btree_dynamic_usage_bounds innerSize leafSize n).map Prod.fst =
      some ((specLowerDecomposition n).1 * innerSize +
        (specLowerDecomposition n).2 * leafSize) := by
  refine ⟨btreeLowerCounts_eq hn, ?_⟩
  rw [btree_bounds_eq innerSize leafSize hn]
  rfl

/-- Witness for C2 at `n = 200` with the `(u16, u16)` node sizes. -/
theorem claim_C2_witness :
    btreeLowerCounts 200 = some (specLowerDecomposition 200) ∧
    (btree_dynamic_usage_bounds 152 56 200).map Prod.fst =
      some ((specLowerDecomposition 200).1 * 152 +
        (specLowerDecomposition 200).2 * 56) :=
  claim_C2 152 56 200 (by norm_num)

/-- C3: for every entry count `n ≥ 1` the upper-bound decomposition is
computed with `h_max = floor(log_6((n+1)/2))` (d = 6): a single leaf at
`h_max = 0`, one internal node and two leaves at `h_max = 1`, else
`1 + 2*(6^(h_max-2) - 1)/5` internal nodes and `2 * 6^(h_max-2)`
leaves, converted to bytes the same way. -/
theorem claim_C3 (innerSize leafSize n : Nat) (hn : 1 ≤ n) :
    btreeUpperCounts n = specUpperDecomposition n ∧
    (btree_dynamic_usage_bounds innerSize leafSize n).map Prod.snd =
      some ((specUpperDecomposition n).1 * innerSize +
        (specUpperDecomposition n).2 * leafSize) := by
  refine ⟨btreeUpperCounts_eq n, ?_⟩
  rw [btree_bounds_eq innerSize leafSize hn]
  rfl

/-- Witness for C3 at `n = 300` with the `(u16, u16)` node sizes. -/
theorem claim_C3_witness :
    btreeUpperCounts 300 = specUpperDecomposition 300 ∧
    (btree_dynamic_usage_bounds 152 56 300).map Prod.snd =
      some ((specUpperDecomposition 300).1 * 152 +
        (specUpperDecomposition 300).2 * 56) :=
  claim_C3 152 56 300 (by norm_num)

/-- C4: the claim (and spec) says `n = 0` short-circuits to zero bytes
and `(0, Some(0))`; the code has no such short-circuit — at `n = 0` the
`u32` subtraction in `h_min` underflows and no value is returned. -/
theorem claim_C4_bug (innerSize leafSize : Nat) :
    mapDynamicUsage innerSize leafSize [] = none ∧
    mapDynamicUsageBounds innerSize leafSize [] = none ∧
    btree_dynamic_usage_bounds innerSize leafSize 0 = none ∧
    btree_dynamic_usage innerSize leafSize 0 = none := by
  refine ⟨?_, ?_, bounds_zero _ _, usage_zero _ _⟩
  · rw [mapDynamicUsage]
    rw [show ([] : List (DynUsage × DynUsage)).length = 0 from rfl, usage_zero]
    rfl
  · rw [mapDynamicUsageBounds]
    rw [show ([] : List (DynUsage × DynUsage)).length = 0 from rfl, bounds_zero]
    rfl

/-- C5: totality fails on the code.  The tree engine returns no value at
entry count `0` (the `h_min` subtraction underflows), and the crossbeam
`Receiver` match has an arm only for the `List` flavor, so bounded
(`Array` flavor) and zero-capacity (`Zero` flavor) receivers reach no
arm. -/
theorem claim_C5_bug :
    btree_dynamic_usage_bounds 130 60 0 = none ∧
    btree_dynamic_usage 130 60 0 = none ∧
    receiverDynamicUsage 8 4 8 { capacity := some 2, len := 5 } = none ∧
    receiverDynamicUsageBounds 8 4 8 { capacity := some 0, len := 0 } = none :=
  ⟨bounds_zero 130 60, usage_zero 130 60, rfl, rfl⟩

/-- C6 counterexample: at entry count `144` (with the `(u16, u16)` node
sizes) the bounds are `(824, 264)` and the point estimate does not
equal the midpoint formula — the code returns no value at all, because
`upper - lower` underflows. -/
theorem claim_C6_counterexample :
    btree_dynamic_usage 152 56 144 = none ∧
    btree_dynamic_usage_bounds 152 56 144 = some (824, 264) :=
  ⟨usage_144, bounds_144⟩

/-- C6 amended: whenever the engine's bounds are returned and are
ordered (`lower ≤ upper`), the point estimate is
`lower + (upper - lower) / 2` with truncating division, and the
map-level point estimate is the structural estimate plus the summed
key/value estimates. -/
theorem claim_C6_amended :
    (∀ innerSize leafSize n lower upper,
      btree_dynamic_usage_bounds innerSize leafSize n = some (lower, upper) →
      lower ≤ upper →
      btree_dynamic_usage innerSize leafSize n =
        some (lower + (upper - lower) / 2)) ∧
    (∀ (innerSize leafSize : Nat) (entries : List (DynUsage × DynUsage))
        (mid : Nat),
      btree_dynamic_usage innerSize leafSize entries.length = some mid →
      mapDynamicUsage innerSize leafSize entries =
        some (mid + (entries.map fun kv => kv.1.usage + kv.2.usage).sum)) := by
  constructor
  · intro I L n lower upper hb hle
    rw [btree_dynamic_usage, hb]
    show (checkedSub upper lower).map _ = _
    rw [checkedSub_of_le hle]
    rfl
  · intro I L entries mid hu
    rw [mapDynamicUsage, hu]
    rfl

/-- Witness for C6 (amended) at `n = 10`: bounds `(56, 56)`, estimate
`56`, and a 10-entry map of heap-free keys and values reports `56`. -/
theorem claim_C6_witness :
    btree_dynamic_usage 152 56 10 = some 56 ∧
    mapDynamicUsage 152 56 (List.replicate 10 (zeroDynUsage, zeroDynUsage)) =
      some 56 := by
  constructor
  · have h := claim_C6_amended.1 152 56 10 56 56 bounds_10 (le_refl 56)
    simpa using h
  · have hlen : (List.replicate 10 (zeroDynUsage, zeroDynUsage)).length = 10 := by
      simp
    have h := claim_C6_amended.2 152 56
      (List.replicate 10 (zeroDynUsage, zeroDynUsage)) 56 (by rw [hlen, usage_10])
    simpa [zeroDynUsage] using h

/-- C7: inserting one additional entry into a `BTreeMap` or `BTreeSet`
never decreases the computed lower bound (stated for containers that
are nonempty before the insertion; the empty container returns no
bounds at all, see C4). -/
theorem claim_C7 :
    (∀ (innerSize leafSize : Nat) (e : DynUsage × DynUsage)
        (entries : List (DynUsage × DynUsage)), entries ≠ [] →
      ∃ lo lo',
        (mapDynamicUsageBounds innerSize leafSize entries).map Prod.fst =
          some lo ∧
        (mapDynamicUsageBounds innerSize leafSize (e :: entries)).map Prod.fst =
          some lo' ∧
        lo ≤ lo') ∧
    (∀ (innerSize leafSize : Nat) (e : DynUsage) (elems : List DynUsage),
        elems ≠ [] →
      ∃ lo lo',
        (setDynamicUsageBounds innerSize leafSize elems).map Prod.fst =
          some lo ∧
        (setDynamicUsageBounds innerSize leafSize (e :: elems)).map Prod.fst =
          some lo' ∧
        lo ≤ lo') := by
  constructor
  · intro I L e entries hne
    have hn : 1 ≤ entries.length := List.length_pos.mpr hne
    have hn' : 1 ≤ (e :: entries).length := by simp
    refine ⟨(specLowerDecomposition entries.length).1 * I +
        (specLowerDecomposition entries.length).2 * L +
        (entries.map fun kv => kv.1.bounds.1 + kv.2.bounds.1).sum,
      (specLowerDecomposition (e :: entries).length).1 * I +
        (specLowerDecomposition (e :: entries).length).2 * L +
        ((e :: entries).map fun kv => kv.1.bounds.1 + kv.2.bounds.1).sum,
      ?_, ?_, ?_⟩
    · rw [mapDynamicUsageBounds, btree_bounds_eq I L hn, Option.map_some',
        Option.map_some', mapFold_fst]
    · rw [mapDynamicUsageBounds, btree_bounds_eq I L hn', Option.map_some',
        Option.map_some', mapFold_fst]
    · have h1 := specLowerBytes_mono I L
        (show entries.length ≤ (e :: entries).length by simp)
      rw [List.map_cons, List.sum_cons]
      omega
  · intro I L e elems hne
    have hn : 1 ≤ elems.length := List.length_pos.mpr hne
    have hn' : 1 ≤ (e :: elems).length := by simp
    refine ⟨(specLowerDecomposition elems.length).1 * I +
        (specLowerDecomposition elems.length).2 * L +
        (elems.map fun k => k.bounds.1).sum,
      (specLowerDecomposition (e :: elems).length).1 * I +
        (specLowerDecomposition (e :: elems).length).2 * L +
        ((e :: elems).map fun k => k.bounds.1).sum,
      ?_, ?_, ?_⟩
    · rw [setDynamicUsageBounds, btree_bounds_eq I L hn, Option.map_some',
        Option.map_some', setFold_fst]
    · rw [setDynamicUsageBounds, btree_bounds_eq I L hn', Option.map_some',
        Option.map_some', setFold_fst]
    · have h1 := specLowerBytes_mono I L
        (show elems.length ≤ (e :: elems).length by simp)
      rw [List.map_cons, List.sum_cons]
      omega

/-- Witness for C7: inserting into one-entry containers with the
`(u16, u16)` node sizes. -/
theorem claim_C7_witness :
    (∃ lo lo',
      (mapDynamicUsageBounds 152 56 [(zeroDynUsage, zeroDynUsage)]).map
        Prod.fst = some lo ∧
      (mapDynamicUsageBounds 152 56 ((zeroDynUsage, zeroDynUsage) ::
        [(zeroDynUsage, zeroDynUsage)])).map Prod.fst = some lo' ∧
      lo ≤ lo') ∧
    (∃ lo lo',
      (setDynamicUsageBounds 152 56 [zeroDynUsage]).map Prod.fst = some lo ∧
      (setDynamicUsageBounds 152 56 (zeroDynUsage :: [zeroDynUsage])).map
        Prod.fst = some lo' ∧
      lo ≤ lo') :=
  ⟨claim_C7.1 152 56 (zeroDynUsage, zeroDynUsage)
      [(zeroDynUsage, zeroDynUsage)] (by simp),
    claim_C7.2 152 56 zeroDynUsage [zeroDynUsage] (by simp)⟩

/-- C8: every sequence container's usage is its reserved slot count
times the static element size plus the summed element estimates
(`Vec`/`BinaryHeap`: capacity; `LinkedList`: length; `VecDeque`:
capacity plus one extra ring-buffer slot); and a `Vec` of 8-byte
elements with capacity 7 and one populated heap-free slot reports `56`
with bounds `(56, Some(56))`. -/
theorem claim_C8 :
    (∀ (capacity elemSize : Nat) (elems : List DynUsage),
      vecDynamicUsage capacity elemSize elems =
        capacity * elemSize + (elems.map DynUsage.usage).sum) ∧
    (∀ (capacity elemSize : Nat) (elems : List DynUsage),
      binaryHeapDynamicUsage capacity elemSize elems =
        capacity * elemSize + (elems.map DynUsage.usage).sum) ∧
    (∀ (elemSize : Nat) (elems : List DynUsage),
      linkedListDynamicUsage elemSize elems =
        elems.length * elemSize + (elems.map DynUsage.usage).sum) ∧
    (∀ (capacity elemSize : Nat) (elems : List DynUsage),
      vecDequeDynamicUsage capacity elemSize elems =
        (capacity + 1) * elemSize + (elems.map DynUsage.usage).sum) ∧
    vecDynamicUsage 7 8 [zeroDynUsage] = 56 ∧
    vecDynamicUsageBounds 7 8 [zeroDynUsage] = (56, some 56) :=
  ⟨fun _ _ _ => rfl, fun _ _ _ => rfl, fun _ _ => rfl, fun _ _ _ => rfl,
    rfl, rfl⟩

/-- C9: a `BTreeSet<T>` computes exactly what a `BTreeMap` keyed by `T`
with the zero-sized unit value type computes at the same entry count,
for both the point estimate and the bounds. -/
theorem claim_C9 (innerSize leafSize : Nat) (elems : List DynUsage) :
    setDynamicUsage innerSize leafSize elems =
      mapDynamicUsage innerSize leafSize
        (elems.map fun e => (e, unitDynUsage)) ∧
    setDynamicUsageBounds innerSize leafSize elems =
      mapDynamicUsageBounds innerSize leafSize
        (elems.map fun e => (e, unitDynUsage)) := by
  have hlen : (elems.map fun e => (e, unitDynUsage)).length = elems.length := by
    simp
  constructor
  · rw [setDynamicUsage, mapDynamicUsage, hlen]
    have hfun : ((fun kv : DynUsage × DynUsage => kv.1.usage + kv.2.usage) ∘
        fun e => (e, unitDynUsage)) = DynUsage.usage := by
      funext e
      simp [unitDynUsage, Function.comp]
    have hsum : ((elems.map fun e => (e, unitDynUsage)).map
        fun kv => kv.1.usage + kv.2.usage).sum = (elems.map DynUsage.usage).sum := by
      rw [List.map_map, hfun]
    rw [hsum]
  · rw [setDynamicUsageBounds, mapDynamicUsageBounds, hlen]
    cases hb : btree_dynamic_usage_bounds innerSize leafSize elems.length with
    | none => rfl
    | some b => simp [foldl_map_unit]

/-- C10 counterexample: a bounded-channel `Receiver` (capacity
`Some(1)`, guessed flavor `Array`) reaches no match arm, so
`dynamic_usage_bounds` returns no range at all. -/
theorem claim_C10_counterexample :
    receiverDynamicUsageBounds 8 4 8 { capacity := some 1, len := 3 } = none :=
  rfl

/-- C10 amended: whenever `Receiver::dynamic_usage` returns a value
(i.e. for the `List` flavor), the bounds are exactly
`(usage, Some(usage))`; and every `Sender` reports `0` and
`(0, Some(0))` regardless of the channel's contents. -/
theorem claim_C10_amended :
    (∀ (ptrSize itemSize atomicSize : Nat) (rx : ChannelState) (u : Nat),
      receiverDynamicUsage ptrSize itemSize atomicSize rx = some u →
      receiverDynamicUsageBounds ptrSize itemSize atomicSize rx =
        some (u, some u)) ∧
    (∀ ch : ChannelState,
      senderDynamicUsage ch = 0 ∧ senderDynamicUsageBounds ch = (0, some 0)) := by
  constructor
  · intro p s a rx u hu
    rw [receiverDynamicUsageBounds, hu]
    rfl
  · intro ch
    exact ⟨rfl, rfl⟩

/-- Witness for C10 (amended): an unbounded (`List` flavor) receiver
holding 5 items of a 4-byte type on a 64-bit target uses one 380-byte
block; the sender reports zero. -/
theorem claim_C10_witness :
    receiverDynamicUsageBounds 8 4 8 { capacity := none, len := 5 } =
      some (380, some 380) ∧
    senderDynamicUsage { capacity := none, len := 5 } = 0 ∧
    senderDynamicUsageBounds { capacity := none, len := 5 } = (0, some 0) :=
  ⟨claim_C10_amended.1 8 4 8 { capacity := none, len := 5 } 380 rfl,
    (claim_C10_amended.2 { capacity := none, len := 5 }).1,
    (claim_C10_amended.2 { capacity := none, len := 5 }).2⟩

end Memuse
